import Mathlib

/-! Shallow embedding of `src/normalizer.py` (a batch video audio
normalizer).  Pure computations are translated directly; the external
engine subprocesses are modelled by their observable results (exit status,
standard-output text, diagnostic-stream text), and the filesystem by
explicit snapshot values.  Python floats are modelled by rationals, which
is exact on the plain decimal strings the engine contracts promise. -/

namespace Normalizer

/-- Numeric value of a list of decimal digit characters, most significant
first. -/
def digitsToNat (cs : List Char) : Nat :=
  cs.foldl (fun a c => 10 * a + (c.toNat - 48)) 0

/-- Python `str.strip()` with no argument: remove leading and trailing
whitespace. -/
def pyStrip (s : String) : String :=
  String.mk (((s.toList.dropWhile Char.isWhitespace).reverse.dropWhile
    Char.isWhitespace).reverse)

/-- Models Python `float()` as `get_video_duration` applies it to the
probe's stripped standard output.  The engine's output contract is a
single bare decimal numeric string, so the model covers signed decimal
literals (`"12"`, `"-3.5"`, `"7."`, `".25"`); every other string (empty,
`"N/A"`, ...) fails to parse, which in Python raises `ValueError`. -/
def parsePyFloat (s : String) : Option ℚ :=
  let cs := s.toList
  let sgn : ℚ := match cs with
    | '-' :: _ => -1
    | _ => 1
  let rest : List Char := match cs with
    | '-' :: t => t
    | '+' :: t => t
    | _ => cs
  let ip := rest.takeWhile Char.isDigit
  let r2 := rest.dropWhile Char.isDigit
  match r2 with
  | [] => if ip.isEmpty then none else some (sgn * digitsToNat ip)
  | '.' :: fp =>
      if fp.all Char.isDigit && !(ip.isEmpty && fp.isEmpty) then
        some (sgn * ((digitsToNat ip : ℚ) + (digitsToNat fp : ℚ) / (10 : ℚ) ^ fp.length))
      else none
  | _ => none

/-- Result of one `subprocess.run` call: either the subprocess machinery
raised `subprocess.SubprocessError`, or the call completed and captured
this standard-output text.  (A non-zero engine exit still counts as
completed: `subprocess.run` without `check=True` does not raise on it; it
just yields whatever stdout the engine printed.) -/
inductive SubprocResult where
  | errored : SubprocResult
  | completed (stdout : String) : SubprocResult
  deriving DecidableEq

/-- The fallback branch of `get_video_duration` (src/normalizer.py:118-130):
run the container-level probe, parse its stripped stdout, and resolve a
parse failure to 0.0.  The `Except` layer records the one uncaught path:
the fallback `subprocess.run` itself raising, which the inner `try`
(catching only `ValueError`) does not intercept. -/
def run_fallback_probe (fallback : SubprocResult) : Except String (ℚ × Nat) :=
  match fallback with
  | .errored => .error ("SubprocessError")
  | .completed t =>
      match parsePyFloat (pyStrip t) with
      | some d => .ok (d, 1)
      | none => .ok (0, 1)

/-- Shallow embedding of `get_video_duration` (src/normalizer.py:88-130).
The two `SubprocResult` arguments model the primary video-stream probe and
the fallback container probe; the returned pair carries the duration
together with how many times the fallback command was invoked (0 or 1). -/
def get_video_duration (video_path : List String)
    (primary fallback : SubprocResult) : Except String (ℚ × Nat) :=
  match primary with
  | .completed s =>
      match parsePyFloat (pyStrip s) with
      | some d => .ok (d, 0)
      | none => run_fallback_probe fallback
  | .errored => run_fallback_probe fallback

/-- The fixed extension allow-set of `get_video_files`
(src/normalizer.py:81). -/
def video_extensions : List String :=
  [".mp4", ".mkv", ".avi", ".mov", ".wmv", ".flv"]

/-- Python `str.lower` on the ASCII extension strings it is applied to. -/
def pyLower (s : String) : String := String.mk (s.toList.map Char.toLower)

/-- Python `pathlib.PurePath.suffix` of a final path component: the text
from the last dot onward, but empty when there is no dot or the last dot
is the first or the last character of the name. -/
def pySuffix (name : String) : String :=
  let cs := name.toList
  if '.' ∈ cs then
    let i := cs.length - 1 - cs.reverse.indexOf '.'
    if 0 < i ∧ i < cs.length - 1 then String.mk (cs.drop i) else ""
  else ""

/-- The discovery filter `f.suffix.lower() in video_extensions`
(src/normalizer.py:85-86), applied to a path given as its components
relative to the scanned root.  It inspects only the final component's
suffix, exactly as `Path.suffix` does, so directory entries whose name
carries a matching extension pass it too. -/
def isVideoFile (p : List String) : Bool :=
  match p.getLast? with
  | some n => video_extensions.contains (pyLower (pySuffix n))
  | none => false

/-- A snapshot of the scanned directory's strict descendants in the
enumeration order `pathlib` reports them: each entry is its path relative
to the root (a non-empty component list) plus whether the entry is itself
a directory.  `glob('*')` on this snapshot yields the depth-one entries
and `rglob('*')` yields them all; that is the traversal capability the
source delegates to `pathlib`. -/
structure Snapshot where
  entries : List (List String × Bool)

/-- What the scanned root path refers to on disk. -/
inductive RootState where
  | missing : RootState
  | nonDir : RootState
  | dir (snap : Snapshot) : RootState

/-- The discovery-time error class named by the specification.  It appears
here only so that the embedding of `get_video_files` has an explicit error
channel on which to show that the source never produces it. -/
inductive DiscoveryError where
  | notFound : DiscoveryError
  deriving DecidableEq

/-- A physically possible snapshot: entry paths are pairwise distinct and
non-empty. -/
def Snapshot.WF (s : Snapshot) : Prop :=
  (s.entries.map Prod.fst).Nodup ∧ ∀ e ∈ s.entries, e.1 ≠ []

/-- Shallow embedding of `get_video_files` (src/normalizer.py:67-86).
CPython's `Path.glob`/`Path.rglob` selectors return an empty iterator for
a missing or non-directory root rather than raising, so discovery answers
`[]` there; otherwise the listed entries — directories included, exactly
as `glob('*')` yields them — are filtered by lower-cased suffix.  The
`Except` layer makes it explicit that the function has no raising path. -/
def get_video_files (root : RootState) (recursive : Bool) :
    Except DiscoveryError (List (List String)) :=
  match root with
  | .missing => .ok []
  | .nonDir => .ok []
  | .dir s =>
      let listed := if recursive then s.entries
        else s.entries.filter (fun e => e.1.length == 1)
      .ok ((listed.map Prod.fst).filter isVideoFile)

/-- A filesystem path split as parent directory plus final name, mirroring
`Path.parent` and `Path.name`. -/
structure VPath where
  parent : List String
  name : String
  deriving DecidableEq

/-- The output path `video_path.parent / f"normalized_{video_path.name}"`
computed by `process_video` (src/normalizer.py:152). -/
def output_path (video_path : VPath) : VPath :=
  ⟨video_path.parent, "normalized_" ++ video_path.name⟩

/-- One finished engine run as `process_video` observes it: the child's
exit status, the diagnostic lines the progress loop consumed while the
child was alive (they only drive the console render), and the diagnostic
text still unread when the child exited. -/
structure EngineRun where
  returncode : Int
  progressLines : List String
  remainingStderr : String
  deriving DecidableEq

/-- The wall-clock and size measurements `process_video` takes around the
run: elapsed seconds, and input/output sizes in megabytes as
`get_file_size` reports them. -/
structure RunMeasures where
  elapsed : ℚ
  inputSize : ℚ
  outputSize : ℚ
  deriving DecidableEq

/-- The per-file statistics a successful `process_video` computes and
reports. -/
structure InvocationOutcome where
  elapsed : ℚ
  inputSize : ℚ
  outputSize : ℚ
  averageSpeed : ℚ
  deriving DecidableEq

/-- The throughput expression
`input_size / process_time if process_time > 0 else 0`
(src/normalizer.py:206). -/
def average_speed (input_size process_time : ℚ) : ℚ :=
  if process_time > 0 then input_size / process_time else 0

/-- Shallow embedding of the invocation half of `process_video`
(src/normalizer.py:177-215): once the progress loop ends, a non-zero exit
status reads the remaining diagnostic text and raises
`Exception(error_message)` — the engine-failure signal, which the
function's own `except subprocess.CalledProcessError` clause does not
intercept — while a zero status computes the completion statistics and
returns them. -/
def process_video (video_path : VPath) (current_file total_files : Nat)
    (run : EngineRun) (m : RunMeasures) : Except String InvocationOutcome :=
  if run.returncode ≠ 0 then .error run.remainingStderr
  else .ok ⟨m.elapsed, m.inputSize, m.outputSize, average_speed m.inputSize m.elapsed⟩

/-- Paths the engine command of `process_video` is asked to (over)write:
only the output path, the target of the `-y` flag
(src/normalizer.py:173-174). -/
def write_targets (video_path : VPath) : List VPath :=
  [output_path video_path]

/-- Paths `process_video` itself deletes: none.  The source contains no
remove/unlink call, so a partially written output of a failed run is left
in place. -/
def removed_files (video_path : VPath) (run : EngineRun) : List VPath := []

/-- What the per-file boundary of `main` records for one file
(src/normalizer.py:233-238): either the file was processed, or the caught
exception's text is kept together with the offending path. -/
inductive FileReport where
  | ok (file : List String) : FileReport
  | failed (file : List String) (err : String) : FileReport
  deriving DecidableEq

/-- The path a report is about. -/
def FileReport.file : FileReport → List String
  | .ok f => f
  | .failed f _ => f

/-- Whether a report records a failure. -/
def FileReport.isFailed : FileReport → Bool
  | .ok _ => false
  | .failed _ _ => true

/-- One iteration of the batch loop: `process_video` wrapped in
`try/except Exception` (src/normalizer.py:234-238). -/
def report_of (outcome : List String → Except String Unit)
    (f : List String) : FileReport :=
  match outcome f with
  | .ok _ => .ok f
  | .error e => .failed f e

/-- The batch loop of `main` (src/normalizer.py:233-238): every discovered
file is attempted in order; a failure is recorded and the loop moves on to
the next file. -/
def run_batch (outcome : List String → Except String Unit)
    (files : List (List String)) : List FileReport :=
  files.map (report_of outcome)

/-- The failure entries among a batch's reports. -/
def failures (reports : List FileReport) : List FileReport :=
  reports.filter FileReport.isFailed

/-- Observable per-file events of the batch, in program order: gathering
the pre-processing metrics (size and duration probes), starting the engine
invocation, and the invocation's completion (by success or failure). -/
inductive Ev where
  | metrics (file : List String) (index total : Nat) : Ev
  | invokeStart (file : List String) (index total : Nat) : Ev
  | invokeEnd (file : List String) : Ev
  deriving DecidableEq

/-- Events of one `process_video` call (src/normalizer.py:149-211): sizes
and duration are read first, then the engine child is spawned, and the
call returns or raises only after the child has exited. -/
def file_trace (f : List String) (index total : Nat) : List Ev :=
  [.metrics f index total, .invokeStart f index total, .invokeEnd f]

/-- The loop `for index, video_path in enumerate(video_files, 1)` unrolled
into its event trace, carrying the running 1-based index. -/
def batch_trace (total : Nat) : Nat → List (List String) → List Ev
  | _, [] => []
  | i, f :: fs => file_trace f i total ++ batch_trace total (i + 1) fs

/-- The full event trace of the processing phase of `main`
(src/normalizer.py:233-238). -/
def main_trace (files : List (List String)) : List Ev :=
  batch_trace files.length 1 files

/-- A concrete directory snapshot used to instantiate the discovery
theorems: two videos (one of them inside a subdirectory), one
subdirectory, one non-video file. -/
def sampleSnap : Snapshot :=
  ⟨[([("a.mp4")], false), ([("sub")], true),
    ([("sub"), ("b.mkv")], false), ([("notes.txt")], false)]⟩

/-- A concrete per-file outcome used to instantiate the batch theorems:
only `b.mp4` fails. -/
def sampleOutcome : List String → Except String Unit := fun f =>
  if f = [("b.mp4")] then .error ("engine exited 1") else .ok ()

/-- A concrete successful engine run used to instantiate the invocation
theorems. -/
def sampleRun : EngineRun := ⟨0, [], ("")⟩

/-- Concrete measurements used to instantiate the invocation theorems:
2 s elapsed, 10 MB in, 8 MB out. -/
def sampleMeasures : RunMeasures := ⟨2, 10, 8⟩

/-! Helper lemmas: concrete evaluations of `parsePyFloat`.  The rational
arithmetic in the parser does not reduce definitionally, so each value is
first exposed by `rfl` up to the arithmetic and then settled by
`norm_num`. -/

theorem parse_na : parsePyFloat (pyStrip ("N/A")) = none := by decide

theorem parse_empty : parsePyFloat (pyStrip ("")) = none := by decide

theorem parse_75 : parsePyFloat (pyStrip ("7.5")) = some (15 / 2) := by
  rw [show parsePyFloat (pyStrip ("7.5")) =
      some ((1 : ℚ) * ((digitsToNat ['7'] : ℚ) +
        (digitsToNat ['5'] : ℚ) / (10 : ℚ) ^ (['5'].length))) from rfl,
    show digitsToNat ['7'] = 7 from rfl, show digitsToNat ['5'] = 5 from rfl]
  norm_num

theorem parse_25 : parsePyFloat (pyStrip ("2.5")) = some (5 / 2) := by
  rw [show parsePyFloat (pyStrip ("2.5")) =
      some ((1 : ℚ) * ((digitsToNat ['2'] : ℚ) +
        (digitsToNat ['5'] : ℚ) / (10 : ℚ) ^ (['5'].length))) from rfl,
    show digitsToNat ['2'] = 2 from rfl, show digitsToNat ['5'] = 5 from rfl]
  norm_num

theorem parse_neg5 : parsePyFloat (pyStrip ("-5")) = some (-5) := by
  rw [show parsePyFloat (pyStrip ("-5")) =
      some ((-1 : ℚ) * (digitsToNat ['5'] : ℚ)) from rfl,
    show digitsToNat ['5'] = 5 from rfl]
  norm_num

/-- C1: when the primary duration probe's standard output is not parseable
as a float, or the primary subprocess fails, `get_video_duration` invokes
the fallback container-level probe exactly once and returns its parsed
value; when the fallback output is also unparseable it returns exactly
0.0; in every such case it returns normally rather than raising. -/
theorem duration_fallback (vp : List String) (primary : SubprocResult)
    (fb : String)
    (h : primary = .errored ∨
      ∃ s, primary = .completed s ∧ parsePyFloat (pyStrip s) = none) :
    (∀ v, parsePyFloat (pyStrip fb) = some v →
      get_video_duration vp primary (.completed fb) = .ok (v, 1)) ∧
    (parsePyFloat (pyStrip fb) = none →
      get_video_duration vp primary (.completed fb) = .ok (0, 1)) := by
  have hcall : get_video_duration vp primary (.completed fb) =
      run_fallback_probe (.completed fb) := by
    rcases h with rfl | ⟨s, rfl, hs⟩
    · rfl
    · simp [get_video_duration, hs]
  constructor
  · intro v hv
    rw [hcall]
    simp [run_fallback_probe, hv]
  · intro hv
    rw [hcall]
    simp [run_fallback_probe, hv]

/-- C1 witness: with primary output `N/A` and fallback output `7.5`, the
fallback is consulted exactly once and its parsed value 7.5 returned. -/
theorem duration_fallback_w :
    (SubprocResult.completed ("N/A") = SubprocResult.errored ∨
      ∃ s, SubprocResult.completed ("N/A") = SubprocResult.completed s ∧
        parsePyFloat (pyStrip s) = none) ∧
    get_video_duration [] (.completed ("N/A")) (.completed ("7.5")) =
      .ok (15 / 2, 1) := by
  have hprem : SubprocResult.completed ("N/A") = SubprocResult.errored ∨
      ∃ s, SubprocResult.completed ("N/A") = SubprocResult.completed s ∧
        parsePyFloat (pyStrip s) = none :=
    Or.inr ⟨("N/A"), rfl, parse_na⟩
  exact ⟨hprem, (duration_fallback [] _ ("7.5") hprem).1 (15 / 2) parse_75⟩

/-- C2 counterexample: on a missing root and on a non-directory root,
`get_video_files` returns an empty listing normally — it does not fail
with the specification's `NotFoundError` (CPython's glob machinery yields
an empty iterator there), so nothing aborts the batch at discovery time. -/
theorem discovery_no_notfound_cex :
    get_video_files .missing false = .ok [] ∧
    get_video_files .nonDir false = .ok [] ∧
    get_video_files .missing false ≠ .error .notFound ∧
    get_video_files .nonDir false ≠ .error .notFound := by
  refine ⟨rfl, rfl, ?_, ?_⟩
  · intro h
    rw [show get_video_files .missing false = .ok [] from rfl] at h
    exact Except.noConfusion h
  · intro h
    rw [show get_video_files .nonDir false = .ok [] from rfl] at h
    exact Except.noConfusion h

/-- C2 (amended): discovery never raises: for every root state
`get_video_files` returns normally, and a missing or non-directory root
yields the empty work list, so the batch simply finds zero files instead
of aborting. -/
theorem discovery_total (root : RootState) (recursive : Bool) :
    (∃ l, get_video_files root recursive = .ok l) ∧
    ((root = .missing ∨ root = .nonDir) →
      get_video_files root recursive = .ok []) := by
  cases root with
  | missing => exact ⟨⟨[], rfl⟩, fun _ => rfl⟩
  | nonDir => exact ⟨⟨[], rfl⟩, fun _ => rfl⟩
  | dir s =>
      refine ⟨⟨_, rfl⟩, ?_⟩
      rintro (h | h) <;> exact RootState.noConfusion h

/-- C2 amendment witness: instantiated at a missing root. -/
theorem discovery_total_w :
    (RootState.missing = RootState.missing ∨
      RootState.missing = RootState.nonDir) ∧
    get_video_files .missing false = .ok [] :=
  ⟨Or.inl rfl, (discovery_total .missing false).2 (Or.inl rfl)⟩

/-- Shared helper: the fallback branch never yields a negative duration
when the fallback output only parses to non-negative values. -/
theorem run_fallback_probe_nonneg (fallback : SubprocResult) (d : ℚ) (k : Nat)
    (hf : ∀ s v, fallback = .completed s →
      parsePyFloat (pyStrip s) = some v → 0 ≤ v)
    (hres : run_fallback_probe fallback = .ok (d, k)) : 0 ≤ d := by
  cases fallback with
  | errored => simp [run_fallback_probe] at hres
  | completed t =>
      rcases hpt : parsePyFloat (pyStrip t) with _ | v
      · simp [run_fallback_probe, hpt] at hres
        rw [← hres.1]
      · simp [run_fallback_probe, hpt] at hres
        rw [← hres.1]
        exact hf t v rfl hpt

/-- C8 (amended): `get_video_duration` returns either a parsed probe
output or the 0.0 sentinel, so the duration is non-negative whenever
every parseable probe output parses to a non-negative value (the source
never clamps, so a negative probe output does come back negative — see
the counterexample). -/
theorem duration_nonneg (vp : List String) (primary fallback : SubprocResult)
    (d : ℚ) (k : Nat)
    (hp : ∀ s v, primary = .completed s →
      parsePyFloat (pyStrip s) = some v → 0 ≤ v)
    (hf : ∀ s v, fallback = .completed s →
      parsePyFloat (pyStrip s) = some v → 0 ≤ v)
    (hres : get_video_duration vp primary fallback = .ok (d, k)) : 0 ≤ d := by
  cases primary with
  | errored => exact run_fallback_probe_nonneg fallback d k hf hres
  | completed s =>
      rcases hps : parsePyFloat (pyStrip s) with _ | v
      · rw [show get_video_duration vp (.completed s) fallback =
            run_fallback_probe fallback from by simp [get_video_duration, hps]]
          at hres
        exact run_fallback_probe_nonneg fallback d k hf hres
      · simp [get_video_duration, hps] at hres
        rw [← hres.1]
        exact hp s v rfl hps

/-- C8 witness: both probe outputs parse only to non-negative values, and
the returned duration 2.5 is non-negative. -/
theorem duration_nonneg_w :
    (∀ s v, SubprocResult.completed ("2.5") = SubprocResult.completed s →
      parsePyFloat (pyStrip s) = some v → 0 ≤ v) ∧
    (∀ s v, SubprocResult.completed ("") = SubprocResult.completed s →
      parsePyFloat (pyStrip s) = some v → 0 ≤ v) ∧
    get_video_duration [] (.completed ("2.5")) (.completed ("")) =
      .ok (5 / 2, 0) ∧
    (0 : ℚ) ≤ 5 / 2 := by
  have hp : ∀ s v, SubprocResult.completed ("2.5") = SubprocResult.completed s →
      parsePyFloat (pyStrip s) = some v → 0 ≤ v := by
    intro s v hs hv
    injection hs with h
    subst h
    rw [parse_25] at hv
    injection hv with h
    rw [← h]
    norm_num
  have hf : ∀ s v, SubprocResult.completed ("") = SubprocResult.completed s →
      parsePyFloat (pyStrip s) = some v → 0 ≤ v := by
    intro s v hs hv
    injection hs with h
    subst h
    rw [parse_empty] at hv
    exact Option.noConfusion hv
  have hres : get_video_duration [] (.completed ("2.5")) (.completed ("")) =
      .ok (5 / 2, 0) := by
    simp only [get_video_duration, parse_25]
  exact ⟨hp, hf, hres, duration_nonneg [] _ _ (5 / 2) 0 hp hf hres⟩

/-- C8 counterexample: a primary probe output of `-5` (which Python
`float` parses to -5.0) makes `get_video_duration` return a negative
duration, refuting non-negativity over all probe output pairs. -/
theorem duration_negative_cex :
    get_video_duration [] (.completed ("-5")) (.completed ("")) =
      .ok (-5, 0) ∧ ((-5 : ℚ) < 0) := by
  constructor
  · simp only [get_video_duration, parse_neg5]
  · norm_num

/-- C3: non-recursive discovery returns exactly the direct children of the
root whose lower-cased extension is in the allow-set and nothing from
subdirectories; recursive discovery returns that set plus all matching
descendants, with no duplicates; and the extension test is
case-insensitive: `CLIP.MP4` passes it exactly as `clip.mp4` does. -/
theorem discovery_filter (s : Snapshot) (hwf : s.WF) :
    ∃ direct recur : List (List String),
      get_video_files (.dir s) false = .ok direct ∧
      get_video_files (.dir s) true = .ok recur ∧
      (∀ p, p ∈ direct ↔
        ((∃ b, (p, b) ∈ s.entries) ∧ p.length = 1 ∧ isVideoFile p = true)) ∧
      (∀ p, p ∈ recur ↔
        ((∃ b, (p, b) ∈ s.entries) ∧ isVideoFile p = true)) ∧
      direct.Nodup ∧ recur.Nodup ∧
      (∀ p, p ∈ direct → p ∈ recur) ∧
      isVideoFile [("CLIP.MP4")] = true ∧
      isVideoFile [("clip.mp4")] = true := by
  have hsub : List.Sublist (s.entries.filter (fun e => e.1.length == 1))
      s.entries :=
    List.filter_sublist _
  have hfalse : get_video_files (.dir s) false =
      .ok (((s.entries.filter (fun e => e.1.length == 1)).map
        Prod.fst).filter isVideoFile) := rfl
  have htrue : get_video_files (.dir s) true =
      .ok ((s.entries.map Prod.fst).filter isVideoFile) := rfl
  refine ⟨_, _, hfalse, htrue, ?_, ?_, ?_, ?_, ?_, by decide, by decide⟩
  · intro p
    simp only [List.mem_filter, List.mem_map, beq_iff_eq]
    constructor
    · rintro ⟨⟨a, ⟨ha, hl⟩, rfl⟩, hv⟩
      exact ⟨⟨a.2, ha⟩, hl, hv⟩
    · rintro ⟨⟨b, hb⟩, hl, hv⟩
      exact ⟨⟨(p, b), ⟨hb, hl⟩, rfl⟩, hv⟩
  · intro p
    simp only [List.mem_filter, List.mem_map]
    constructor
    · rintro ⟨⟨a, ha, rfl⟩, hv⟩
      exact ⟨⟨a.2, ha⟩, hv⟩
    · rintro ⟨⟨b, hb⟩, hv⟩
      exact ⟨⟨(p, b), hb, rfl⟩, hv⟩
  · exact (List.Nodup.sublist (hsub.map Prod.fst) hwf.1).filter _
  · exact hwf.1.filter _
  · exact fun p hp => ((hsub.map Prod.fst).filter isVideoFile).subset hp

/-- C3 witness: evaluated on the sample snapshot with a video, a
subdirectory video, a subdirectory and a non-video file. -/
theorem discovery_filter_w :
    sampleSnap.WF ∧
    get_video_files (.dir sampleSnap) false = .ok [[("a.mp4")]] ∧
    get_video_files (.dir sampleSnap) true =
      .ok [[("a.mp4")], [("sub"), ("b.mkv")]] ∧
    (∃ direct recur : List (List String),
      get_video_files (.dir sampleSnap) false = .ok direct ∧
      get_video_files (.dir sampleSnap) true = .ok recur ∧
      (∀ p, p ∈ direct ↔
        ((∃ b, (p, b) ∈ sampleSnap.entries) ∧ p.length = 1 ∧
          isVideoFile p = true)) ∧
      (∀ p, p ∈ recur ↔
        ((∃ b, (p, b) ∈ sampleSnap.entries) ∧ isVideoFile p = true)) ∧
      direct.Nodup ∧ recur.Nodup ∧
      (∀ p, p ∈ direct → p ∈ recur) ∧
      isVideoFile [("CLIP.MP4")] = true ∧
      isVideoFile [("clip.mp4")] = true) := by
  have hwf : sampleSnap.WF := by
    constructor <;> decide
  exact ⟨hwf, rfl, rfl, discovery_filter sampleSnap hwf⟩

/-- C4: the orchestrator attempts every discovered file in order no matter
which per-file outcomes fail; a failing file's path and error detail are
recorded at its position; and in a 3-file batch where only file 2 fails,
files 1 and 3 are both attempted and exactly one failure is recorded. -/
theorem batch_isolation (outcome : List String → Except String Unit)
    (files : List (List String)) :
    ((run_batch outcome files).map FileReport.file = files) ∧
    (∀ k f e, files.get? k = some f → outcome f = .error e →
      (run_batch outcome files).get? k = some (.failed f e)) ∧
    (∀ f1 f2 f3 e, outcome f1 = .ok () → outcome f2 = .error e →
      outcome f3 = .ok () →
      run_batch outcome [f1, f2, f3] = [.ok f1, .failed f2 e, .ok f3] ∧
      (failures (run_batch outcome [f1, f2, f3])).length = 1) := by
  refine ⟨?_, ?_, ?_⟩
  · induction files with
    | nil => rfl
    | cons f fs ih =>
        have hf : FileReport.file (report_of outcome f) = f := by
          cases h : outcome f <;> simp [report_of, h, FileReport.file]
        show FileReport.file (report_of outcome f) ::
            ((fs.map (report_of outcome)).map FileReport.file) = f :: fs
        rw [hf]
        exact congrArg (List.cons f) ih
  · intro k f e hk he
    rw [run_batch, List.get?_map, hk]
    simp [report_of, he]
  · intro f1 f2 f3 e h1 h2 h3
    constructor
    · simp [run_batch, report_of, h1, h2, h3]
    · simp [failures, run_batch, report_of, h1, h2, h3, FileReport.isFailed]

/-- C4 witness: a 3-file batch in which only the second file's engine
invocation fails still attempts files 1 and 3 and records exactly one
failure. -/
theorem batch_isolation_w :
    sampleOutcome [("a.mp4")] = .ok () ∧
    sampleOutcome [("b.mp4")] = .error ("engine exited 1") ∧
    sampleOutcome [("c.mp4")] = .ok () ∧
    run_batch sampleOutcome [[("a.mp4")], [("b.mp4")], [("c.mp4")]] =
      [.ok [("a.mp4")], .failed [("b.mp4")] ("engine exited 1"),
        .ok [("c.mp4")]] ∧
    (failures (run_batch sampleOutcome
      [[("a.mp4")], [("b.mp4")], [("c.mp4")]])).length = 1 := by
  have h := (batch_isolation sampleOutcome []).2.2
    [("a.mp4")] [("b.mp4")] [("c.mp4")] ("engine exited 1") rfl rfl rfl
  exact ⟨rfl, rfl, rfl, h.1, h.2⟩

/-- C5: for an input `<dir>/<stem><ext>` the computed output path is
exactly `<dir>/normalized_<stem><ext>` — same directory, the fixed single
prefix, the original extension still trailing — and since the rule is a
pure function of the input, a second run on the same input computes this
very name again and never the doubly prefixed one. -/
theorem output_naming (d : List String) (stem ext : String) :
    output_path ⟨d, stem ++ ext⟩ = ⟨d, (("normalized_") ++ stem) ++ ext⟩ ∧
    (output_path ⟨d, stem ++ ext⟩).parent = d ∧
    (output_path ⟨d, stem ++ ext⟩).name ≠
      ("normalized_normalized_") ++ (stem ++ ext) := by
  refine ⟨?_, rfl, ?_⟩
  · show VPath.mk d (("normalized_") ++ (stem ++ ext)) = _
    rw [String.append_assoc]
  · show ("normalized_") ++ (stem ++ ext) ≠
      ("normalized_normalized_") ++ (stem ++ ext)
    intro hcontra
    have hlen := congrArg String.length hcontra
    simp only [String.length_append] at hlen
    rw [show ("normalized_").length = 11 from rfl,
      show ("normalized_normalized_").length = 22 from rfl] at hlen
    omega

/-- C5 witness: instantiated at `d/clip.mp4`. -/
theorem output_naming_w :
    output_path ⟨[("d")], ("clip") ++ (".mp4")⟩ =
      ⟨[("d")], (("normalized_") ++ ("clip")) ++ (".mp4")⟩ ∧
    (output_path ⟨[("d")], ("clip") ++ (".mp4")⟩).parent = [("d")] ∧
    (output_path ⟨[("d")], ("clip") ++ (".mp4")⟩).name ≠
      ("normalized_normalized_") ++ (("clip") ++ (".mp4")) :=
  output_naming [("d")] ("clip") (".mp4")

/-- C6: `process_video` signals a failure — carrying the remaining
diagnostic-stream content as the error detail — exactly when the engine
child exits non-zero; on a zero exit status it returns normally with the
fully populated outcome record; and it deletes no file in either case, so
a partially written output of a failed run stays in place. -/
theorem process_exit_spec (vp : VPath) (cf tf : Nat) (run : EngineRun)
    (m : RunMeasures) :
    (∀ e, process_video vp cf tf run m = .error e ↔
      (run.returncode ≠ 0 ∧ e = run.remainingStderr)) ∧
    (run.returncode = 0 → process_video vp cf tf run m =
      .ok ⟨m.elapsed, m.inputSize, m.outputSize,
        average_speed m.inputSize m.elapsed⟩) ∧
    removed_files vp run = [] := by
  by_cases h : run.returncode = 0
  · refine ⟨?_, fun _ => by simp [process_video, h], rfl⟩
    intro e
    simp [process_video, h]
  · refine ⟨?_, fun h0 => absurd h0 h, rfl⟩
    intro e
    constructor
    · intro he
      rw [show process_video vp cf tf run m = .error run.remainingStderr
          from by simp [process_video, h]] at he
      exact ⟨h, (Except.error.inj he).symm⟩
    · rintro ⟨-, rfl⟩
      simp [process_video, h]

/-- C6 witness: a zero-status run returns the populated outcome (10 MB in
2 s gives 5 MB/s) and removes nothing. -/
theorem process_exit_spec_w :
    sampleRun.returncode = 0 ∧
    process_video ⟨[("d")], ("v.mp4")⟩ 1 3 sampleRun sampleMeasures =
      .ok ⟨2, 10, 8, 5⟩ ∧
    removed_files ⟨[("d")], ("v.mp4")⟩ sampleRun = [] := by
  have h := process_exit_spec ⟨[("d")], ("v.mp4")⟩ 1 3 sampleRun sampleMeasures
  refine ⟨rfl, ?_, h.2.2⟩
  rw [h.2.1 rfl]
  have hav : average_speed sampleMeasures.inputSize sampleMeasures.elapsed = 5 := by
    norm_num [average_speed, sampleMeasures]
  rw [hav]
  rfl

/-- C7: the reported average throughput equals input size divided by
elapsed time and is exactly 0 when the elapsed time is 0, so the
computation never divides by zero (elapsed times are non-negative). -/
theorem throughput_spec (size t : ℚ) (h : 0 ≤ t) :
    average_speed size t = size / t ∧ (t = 0 → average_speed size t = 0) := by
  rcases lt_or_eq_of_le h with hpos | h0
  · constructor
    · simp [average_speed, hpos]
    · intro h0
      exact absurd h0 (ne_of_gt hpos)
  · constructor
    · rw [← h0]
      simp [average_speed]
    · intro hz
      simp [average_speed, ← h0]

/-- C7 witness: 3 MB in 2 s reports 1.5 MB/s. -/
theorem throughput_spec_w :
    (0 : ℚ) ≤ 2 ∧
    (average_speed 3 2 = 3 / 2 ∧ ((2 : ℚ) = 0 → average_speed 3 2 = 0)) :=
  ⟨by norm_num, throughput_spec 3 2 (by norm_num)⟩

/-- Shared helper: length of the unrolled batch trace. -/
theorem batch_trace_length (n : Nat) (files : List (List String)) :
    ∀ i, (batch_trace n i files).length = 3 * files.length := by
  induction files with
  | nil => intro i; rfl
  | cons f fs ih =>
      intro i
      show (file_trace f i n ++ batch_trace n (i + 1) fs).length = _
      rw [List.length_append, ih (i + 1)]
      simp [file_trace]
      ring

/-- Shared helper: the three events of the k-th file sit at positions
3k, 3k+1, 3k+2 of the batch trace, tagged with the running index. -/
theorem batch_trace_get (n : Nat) :
    ∀ (files : List (List String)) (i k : Nat) (f : List String),
      files.get? k = some f →
      (batch_trace n i files).get? (3 * k) = some (.metrics f (i + k) n) ∧
      (batch_trace n i files).get? (3 * k + 1) =
        some (.invokeStart f (i + k) n) ∧
      (batch_trace n i files).get? (3 * k + 2) = some (.invokeEnd f) := by
  intro files
  induction files with
  | nil => intro i k f hk; simp at hk
  | cons g fs ih =>
      intro i k f hk
      cases k with
      | zero =>
          have hg : g = f := by simpa using hk
          subst hg
          exact ⟨rfl, rfl, rfl⟩
      | succ j =>
          have hk' : fs.get? j = some f := hk
          have e := ih (i + 1) j f hk'
          have hidx : i + (j + 1) = (i + 1) + j := by omega
          refine ⟨?_, ?_, ?_⟩
          · show (file_trace g i n ++ batch_trace n (i + 1) fs).get?
              (3 * (j + 1)) = _
            rw [show 3 * (j + 1) = 3 * j + 1 + 1 + 1 from by ring]
            rw [show (file_trace g i n ++ batch_trace n (i + 1) fs).get?
                (3 * j + 1 + 1 + 1) =
              (batch_trace n (i + 1) fs).get? (3 * j) from rfl]
            rw [hidx]
            exact e.1
          · show (file_trace g i n ++ batch_trace n (i + 1) fs).get?
              (3 * (j + 1) + 1) = _
            rw [show 3 * (j + 1) + 1 = 3 * j + 1 + 1 + 1 + 1 from by ring]
            rw [show (file_trace g i n ++ batch_trace n (i + 1) fs).get?
                (3 * j + 1 + 1 + 1 + 1) =
              (batch_trace n (i + 1) fs).get? (3 * j + 1) from rfl]
            rw [hidx]
            exact e.2.1
          · show (file_trace g i n ++ batch_trace n (i + 1) fs).get?
              (3 * (j + 1) + 2) = _
            rw [show 3 * (j + 1) + 2 = 3 * j + 2 + 1 + 1 + 1 from by ring]
            rw [show (file_trace g i n ++ batch_trace n (i + 1) fs).get?
                (3 * j + 2 + 1 + 1 + 1) =
              (batch_trace n (i + 1) fs).get? (3 * j + 2) from rfl]
            exact e.2.2

/-- C9: the batch trace is exactly the discovery order unrolled three
events per file with 1-based indices: the k-th file's (0-based) metrics
gathering, invocation start and invocation end sit at positions 3k, 3k+1
and 3k+2 carrying index k+1 and the total count, so file k's metrics and
start lie strictly after file k-1's end (position 3(k-1)+2 = 3k-1 < 3k)
and no two invocation intervals overlap. -/
theorem sequential_order (files : List (List String)) (k : Nat)
    (f : List String) (hk : files.get? k = some f) :
    (main_trace files).length = 3 * files.length ∧
    (main_trace files).get? (3 * k) =
      some (.metrics f (k + 1) files.length) ∧
    (main_trace files).get? (3 * k + 1) =
      some (.invokeStart f (k + 1) files.length) ∧
    (main_trace files).get? (3 * k + 2) = some (.invokeEnd f) := by
  have h := batch_trace_get files.length files 1 k f hk
  have hidx : 1 + k = k + 1 := by omega
  rw [hidx] at h
  exact ⟨batch_trace_length files.length files 1, h.1, h.2.1, h.2.2⟩

/-- C9 witness: a two-file batch, instantiated at the second file. -/
theorem sequential_order_w :
    ([[("a.mp4")], [("b.mkv")]].get? 1 = some [("b.mkv")]) ∧
    ((main_trace [[("a.mp4")], [("b.mkv")]]).length = 3 * 2 ∧
      (main_trace [[("a.mp4")], [("b.mkv")]]).get? 3 =
        some (.metrics [("b.mkv")] 2 2) ∧
      (main_trace [[("a.mp4")], [("b.mkv")]]).get? 4 =
        some (.invokeStart [("b.mkv")] 2 2) ∧
      (main_trace [[("a.mp4")], [("b.mkv")]]).get? 5 =
        some (.invokeEnd [("b.mkv")])) :=
  ⟨rfl, sequential_order [[("a.mp4")], [("b.mkv")]] 1 [("b.mkv")] rfl⟩

/-- C10: for any input path with a non-empty filename the computed output
path differs from the input (the fixed prefix makes the output name
strictly longer), so the engine's overwrite target is never the input
file itself. -/
theorem output_differs (p : VPath) (h : p.name ≠ ("")) :
    output_path p ≠ p ∧
    (output_path p).name.length > p.name.length ∧
    p ∉ write_targets p := by
  have hlen : (output_path p).name.length = 11 + p.name.length := by
    show (("normalized_") ++ p.name).length = 11 + p.name.length
    rw [String.length_append, show ("normalized_").length = 11 from rfl]
  have hne : output_path p ≠ p := by
    intro heq
    have h2 := congrArg String.length (congrArg VPath.name heq)
    rw [hlen] at h2
    omega
  refine ⟨hne, by rw [hlen]; omega, ?_⟩
  intro hmem
  simp only [write_targets, List.mem_singleton] at hmem
  exact hne hmem.symm

/-- C10 witness: instantiated at `d/clip.mp4`. -/
theorem output_differs_w :
    (VPath.mk [("d")] ("clip.mp4")).name ≠ ("") ∧
    (output_path ⟨[("d")], ("clip.mp4")⟩ ≠ ⟨[("d")], ("clip.mp4")⟩ ∧
      (output_path ⟨[("d")], ("clip.mp4")⟩).name.length >
        (VPath.mk [("d")] ("clip.mp4")).name.length ∧
      (VPath.mk [("d")] ("clip.mp4")) ∉
        write_targets ⟨[("d")], ("clip.mp4")⟩) :=
  ⟨by decide, output_differs ⟨[("d")], ("clip.mp4")⟩ (by decide)⟩

end Normalizer
